import Mathlib

/-!
# Verification of the structured-logging library

A shallow embedding of the core of the logger repository:

* the serialization engine (`JsonLogFormatter.formatLogData`, its
  `jsonReplacer`, the `errorToObject` conversion and the `inspect`
  fallback, from `src/lib/formatters/json-formatter.ts`),
* the `Logger` class (severity resolution, `child`, `log`, `getLogData`,
  from `src/lib/logger.ts`),
* the async context store (`runWithContext`, `getLogContext`,
  `mutateContextScope`, from `src/lib/async-context.ts`).

JavaScript runtime values are modelled by the inductive family `JsVal`.
Mutable-free translation notes:

* Exceptions are modelled with `Except JsEx`; a `JsEx.thrown` value is a
  JavaScript exception.  Recursive runtime procedures are written with an
  explicit fuel argument (structural recursion on `Nat`) so that every
  definition is executable and kernel-reducible; `JsEx.fuelOut` is the
  out-of-fuel marker, an artifact of the embedding that no run with the
  generously sized fuel chosen by the wrappers ever produces, and it is
  deliberately distinct from `thrown` so that the modelled `try/catch`
  only catches real JavaScript exceptions.
* Cyclic references (not expressible in an inductive) are modelled by the
  `jsCycle` leaf: it stands for a back reference to an ancestor object,
  which makes `JSON.stringify` throw and which the inspect renderer
  prints as a circular marker.
* A property whose getter throws is the `JsPropVal.getterThrows` case.
-/

set_option autoImplicit false

/- JavaScript runtime values (the `unknown` type of the sources), with the
special cases the serialization engine dispatches on. -/
mutual

inductive JsVal where
  | undef
  | jsNull
  | jsBool (b : Bool)
  | jsNum (n : Int)
  | jsStr (s : String)
  | jsBigInt (n : Int)
  | jsSym (description : String)
  | jsFn (name : String)
  | jsRegExp (source flags : String)
  | jsPromise
  | jsCycle
  | jsObj (props : JsProps)
  | jsArr (items : JsItems)
  | jsErr (e : JsErrorV)

/-- The own enumerable properties of an object, in insertion order. -/
inductive JsProps where
  | pnil
  | pcons (key : String) (val : JsPropVal) (rest : JsProps)

/-- A property is either a plain data value or an accessor that throws when
read. -/
inductive JsPropVal where
  | val (v : JsVal)
  | getterThrows

inductive JsItems where
  | inil
  | icons (hd : JsVal) (tl : JsItems)

/-- An `Error` instance: the standard `name`/`message`/`stack` triple, an
optional `toJSON` method, the extra own enumerable properties that a
`for..in` loop visits, and the optional `cause`. -/
inductive JsErrorV where
  | mk (name message stack : String) (tj : JsTJ) (props : JsProps)
      (cause : JsCauseV)

/-- The `toJSON` method of an error: absent, throwing, or returning a plain
object with the given fields. -/
inductive JsTJ where
  | noTJ
  | throwsTJ
  | fieldsTJ (fields : JsProps)

inductive JsCauseV where
  | noCause
  | causeVal (v : JsVal)

end

/- A serialized JSON document tree, the intermediate result of the
`JSON.stringify` walk before printing. -/
mutual

inductive JTree where
  | jnull
  | jbool (b : Bool)
  | jnum (n : Int)
  | jstr (s : String)
  | jarr (items : JItems)
  | jobj (fields : JFields)

inductive JFields where
  | fnil
  | fcons (key : String) (val : JTree) (rest : JFields)

inductive JItems where
  | jinil
  | jicons (hd : JTree) (tl : JItems)

end

/-- JavaScript exceptions, plus the out-of-fuel marker of the embedding. -/
inductive JsEx where
  | thrown (msg : String)
  | fuelOut
deriving DecidableEq

open JsVal JsProps JsPropVal JsItems JsErrorV JsTJ JsCauseV
open JTree JFields JItems

/-- The JavaScript `typeof` operator on our value model. -/
def typeofV : JsVal → String
  | undef => "undefined"
  | jsNull => "object"
  | jsBool _ => "boolean"
  | jsNum _ => "number"
  | jsStr _ => "string"
  | jsBigInt _ => "bigint"
  | jsSym _ => "symbol"
  | jsFn _ => "function"
  | jsRegExp _ _ => "object"
  | jsPromise => "object"
  | jsCycle => "object"
  | jsObj _ => "object"
  | jsArr _ => "object"
  | jsErr _ => "object"

/-- JavaScript truthiness. -/
def jsTruthy : JsVal → Bool
  | undef => false
  | jsNull => false
  | jsBool b => b
  | jsNum n => n != 0
  | jsStr s => s != ""
  | jsBigInt n => n != 0
  | _ => true

def isArrayV : JsVal → Bool
  | jsArr _ => true
  | _ => false

/-- `isObject` from `src/lib/utils.ts`:
`Boolean(item && typeof item === "object" && !Array.isArray(item))`. -/
def isObject (item : JsVal) : Bool :=
  jsTruthy item && (typeofV item == "object") && !isArrayV item

/-- Escape one character as inside a JSON string literal (the cases of
`QuoteJSONString` our inputs exercise; other control characters are kept
as-is, no claim depends on them). -/
def escapeJsonChar (c : Char) : String :=
  if c = '"' then "\\\""
  else if c = '\\' then "\\\\"
  else if c = '\n' then "\\n"
  else if c = '\t' then "\\t"
  else if c = '\r' then "\\r"
  else String.singleton c

/-- The JSON quoting of a string, double quotes included. -/
def jsonQuote (s : String) : String :=
  "\"" ++ String.join (s.data.map escapeJsonChar) ++ "\""

def joinSep (sep : String) : List String → String
  | [] => ""
  | [x] => x
  | x :: xs => x ++ sep ++ joinSep sep xs

/- Printing a serialized tree exactly as `JSON.stringify` lays it out:
with an empty gap everything is on one line with no spaces; with a gap
(the 2-space indent of the non-compact formatter) objects and arrays
break onto indented lines, members are separated by a comma, a newline
and the inner indentation, and the closing bracket sits on the outer
indentation. -/
mutual

def printJTreeAux (gap ind : String) : JTree → String
  | .jnull => "null"
  | .jbool b => cond b "true" "false"
  | .jnum n => toString n
  | .jstr s => jsonQuote s
  | .jobj fields =>
      let ind2 := ind ++ gap
      let parts := printJFieldsAux gap ind2 fields
      if parts.isEmpty then "\x7b\x7d"
      else if gap = "" then "\x7b" ++ joinSep "," parts ++ "\x7d"
      else
        "\x7b" ++ "\n" ++ ind2 ++ joinSep ("," ++ "\n" ++ ind2) parts
          ++ "\n" ++ ind ++ "\x7d"
  | .jarr items =>
      let ind2 := ind ++ gap
      let parts := printJItemsAux gap ind2 items
      if parts.isEmpty then "[]"
      else if gap = "" then "[" ++ joinSep "," parts ++ "]"
      else
        "[" ++ "\n" ++ ind2 ++ joinSep ("," ++ "\n" ++ ind2) parts
          ++ "\n" ++ ind ++ "]"

def printJFieldsAux (gap ind2 : String) : JFields → List String
  | .fnil => []
  | .fcons k v rest =>
      (jsonQuote k ++ (if gap = "" then ":" else ": ")
        ++ printJTreeAux gap ind2 v) :: printJFieldsAux gap ind2 rest

def printJItemsAux (gap ind2 : String) : JItems → List String
  | .jinil => []
  | .jicons v rest =>
      printJTreeAux gap ind2 v :: printJItemsAux gap ind2 rest

end

/-- Print a serialized tree; `compact` selects the absent gap of
`JsonLogFormatter` in compact mode, otherwise the 2-space indent. -/
def printJTree (compact : Bool) (t : JTree) : String :=
  printJTreeAux (if compact then "" else "  ") "" t

/-- Key membership in an object (the JavaScript `in` check on own
properties). -/
def keyMemP (k : String) : JsProps → Bool
  | pnil => false
  | pcons k2 _ rest => k == k2 || keyMemP k rest

/-- Property lookup.  Runtime objects never carry a duplicate key, so the
first match is the property. -/
def lookupP (k : String) : JsProps → Option JsPropVal
  | pnil => none
  | pcons k2 v rest => if k == k2 then some v else lookupP k rest

/-- The JavaScript property assignment `obj[k] = v`: an existing key keeps
its insertion position and gets the new value, a fresh key is appended. -/
def jsSetProp : JsProps → String → JsPropVal → JsProps
  | pnil, k, v => pcons k v pnil
  | pcons k2 v2 rest, k, v =>
      if k == k2 then pcons k2 v rest
      else pcons k2 v2 (jsSetProp rest k v)

/-- `Object.assign(target, source)` / spread overlay on a source whose
properties were already read: each source entry is assigned in order. -/
def jsAssignProps : JsProps → JsProps → JsProps
  | target, pnil => target
  | target, pcons k v rest => jsAssignProps (jsSetProp target k v) rest

/-- Reading all own enumerable properties of a spread / `Object.assign`
source: a throwing getter propagates its exception. -/
def evalPropsE : JsProps → Except JsEx JsProps
  | pnil => pure pnil
  | pcons _ JsPropVal.getterThrows _ =>
      Except.error (.thrown "getter threw during property read")
  | pcons k (JsPropVal.val v) rest => do
      pure (pcons k (JsPropVal.val v) (← evalPropsE rest))

def appendP : JsProps → JsProps → JsProps
  | pnil, b => b
  | pcons k v rest, b => pcons k v (appendP rest b)

/-- The own enumerable properties of a value, as `Object.assign` reads
them.  RegExp and Promise instances have none; the error case is
unreachable from `getLogData` (the `instanceof Error` branch runs first)
but is given its own enumerable properties for completeness. -/
def ownEnumProps : JsVal → JsProps
  | jsObj ps => ps
  | jsErr (JsErrorV.mk _ _ _ _ ps _) => ps
  | _ => pnil

/- Structure sizes, used only to choose the fuel of the executable
wrappers.  String contents and leaf distinctions do not count, so
replacing one leaf by another leaf preserves every size. -/
mutual

def jsSizeV : JsVal → Nat
  | jsObj ps => 1 + jsSizeP ps
  | jsArr its => 1 + jsSizeI its
  | jsErr e => 1 + jsSizeE e
  | _ => 1

def jsSizeP : JsProps → Nat
  | pnil => 1
  | pcons _ pv rest => 1 + jsSizePV pv + jsSizeP rest

def jsSizePV : JsPropVal → Nat
  | JsPropVal.val v => 1 + jsSizeV v
  | JsPropVal.getterThrows => 1

def jsSizeI : JsItems → Nat
  | inil => 1
  | icons v rest => 1 + jsSizeV v + jsSizeI rest

def jsSizeE : JsErrorV → Nat
  | JsErrorV.mk _ _ _ tj props cause =>
      1 + jsSizeTJ tj + jsSizeP props + jsSizeC cause

def jsSizeTJ : JsTJ → Nat
  | fieldsTJ fs => 1 + jsSizeP fs
  | _ => 1

def jsSizeC : JsCauseV → Nat
  | noCause => 1
  | causeVal v => 1 + jsSizeV v

end

/- Whether a value contains a circular back reference anywhere. -/
mutual

def hasCycleV : JsVal → Bool
  | jsCycle => true
  | jsObj ps => hasCycleP ps
  | jsArr its => hasCycleI its
  | jsErr (JsErrorV.mk _ _ _ _ ps c) =>
      hasCycleP ps || (match c with
        | causeVal v => hasCycleV v
        | noCause => false)
  | _ => false

def hasCycleP : JsProps → Bool
  | pnil => false
  | pcons _ (JsPropVal.val v) rest => hasCycleV v || hasCycleP rest
  | pcons _ JsPropVal.getterThrows rest => hasCycleP rest

def hasCycleI : JsItems → Bool
  | inil => false
  | icons v rest => hasCycleV v || hasCycleI rest

end

/- Modelled from the spec: the bounded, cycle-safe inspection renderer
(`node:util` inspect, external to this repository).  The spec requires it
to terminate on every input, to render repeated references with a
circular back-reference marker and a reference prefix on the container,
throwing getters as a getter token and functions as a labeled
placeholder.  The exact layout (quoting style, indentation of the
non-compact mode) is abstracted to a single-line rendering: no claim
depends on it, only on the renderer being total. -/
mutual

def inspectVal (compact : Bool) : JsVal → String
  | undef => "undefined"
  | jsNull => "null"
  | jsBool b => cond b "true" "false"
  | jsNum n => toString n
  | jsStr s => "\"" ++ s ++ "\""
  | jsBigInt n => toString n ++ "n"
  | jsSym d => "Symbol(" ++ d ++ ")"
  | jsFn name => "[Function: " ++ name ++ "]"
  | jsRegExp s f => "/" ++ s ++ "/" ++ f
  | jsPromise => "Promise"
  | jsCycle => "[Circular *1]"
  | jsObj ps =>
      let parts := inspectProps compact ps
      if parts.isEmpty then "\x7b\x7d"
      else "\x7b " ++ joinSep ", " parts ++ " \x7d"
  | jsArr its =>
      let parts := inspectItems compact its
      if parts.isEmpty then "[]"
      else "[ " ++ joinSep ", " parts ++ " ]"
  | jsErr (JsErrorV.mk name message _ _ _ _) =>
      "[" ++ name ++ ": " ++ message ++ "]"

def inspectProps (compact : Bool) : JsProps → List String
  | pnil => []
  | pcons k (JsPropVal.val v) rest =>
      (k ++ ": " ++ inspectVal compact v) :: inspectProps compact rest
  | pcons k JsPropVal.getterThrows rest =>
      (k ++ ": [Getter]") :: inspectProps compact rest

def inspectItems (compact : Bool) : JsItems → List String
  | inil => []
  | icons v rest => inspectVal compact v :: inspectItems compact rest

end

/-- `formatWithInspect` from `json-formatter.ts`: the fallback renderer.
It never throws; a value containing a back reference gets the reference
prefix on the outermost container. -/
def formatWithInspect (compact : Bool) (arg : JsVal) : String :=
  let body := inspectVal compact arg
  if hasCycleV arg then "<ref *1> " ++ body else body

/-- The template literal conversion of the non-object branch of
`formatLogData`.  ECMAScript ToString throws a TypeError on a symbol;
every other primitive converts to its text. -/
def templateToString : JsVal → Except JsEx String
  | undef => pure "undefined"
  | jsNull => pure "null"
  | jsBool b => pure (cond b "true" "false")
  | jsNum n => pure (toString n)
  | jsStr s => pure s
  | jsBigInt n => pure (toString n)
  | jsSym _ =>
      Except.error (.thrown "TypeError: Cannot convert a Symbol to a string")
  | jsFn name => pure ("function " ++ name ++ "() \x7b \x7d")
  | _ => pure "[object Object]"

/- The serialization engine of `json-formatter.ts`, in one mutual block.

`serializeJsonPropertyF` is SerializeJSONProperty of the JSON.stringify
algorithm with the `jsonReplacer` of the formatter: first the toJSON
step (in this model only errors carry a toJSON), then the replacer
(bigint, RegExp, Promise, undefined and Error substitution, the Error
branch being `formatError`, that is `errorToObject`), then the recursive
structural walk.  The walk produces a `JTree`; the printing with the
stringify `space` is the separate pure `printJTree`.

`errorToObjectF` is the exported `errorToObject`; `errorExtraPropsF` is
its `for..in` copy loop, each value rendered through
`formatter.formatLogData`, and `errorCauseStepF` is its trailing
`if (error.cause)` block (truthy causes only: an error-like cause
recurses, any other cause is rendered to text).

`formatLogDataF` is `JsonLogFormatter.formatLogData`: the non-object
branch returns the template-literal text, the object branch tries
JSON.stringify and catches any exception by falling back to
`formatWithInspect`.

The first argument of each function is the structural fuel of the
embedding; the wrappers below instantiate it so generously that no run
ever exhausts it, and exhaustion is the distinct `fuelOut` outcome, never
confused with a JavaScript exception. -/
mutual

def serializeJsonPropertyF :
    Nat → Bool → String → JsVal → Except JsEx (Option JTree)
  | 0, _, _, _ => Except.error .fuelOut
  | fuel + 1, compact, key, v => do
      let v1 ← match v with
        | jsErr (JsErrorV.mk _ _ _ throwsTJ _ _) =>
            Except.error (JsEx.thrown "toJSON threw")
        | jsErr (JsErrorV.mk _ _ _ (fieldsTJ fs) _ _) => pure (jsObj fs)
        | _ => pure v
      let v2 ← match v1 with
        | jsBigInt n => pure (jsStr (toString n))
        | jsRegExp s f =>
            pure (jsStr ("Regexp \x7b /" ++ s ++ "/" ++ f ++ " \x7d"))
        | jsPromise =>
            pure (jsStr ("Promise \x7b you tried to log a promise at "
              ++ key ++ ". try awaiting it pls \x7d"))
        | undef => pure (jsStr "FakeValue \x7b undefined \x7d")
        | jsErr e => do
            pure (jsObj (← errorToObjectF fuel compact e))
        | _ => pure v1
      match v2 with
      | undef => pure none
      | jsNull => pure (some JTree.jnull)
      | jsBool b => pure (some (JTree.jbool b))
      | jsNum n => pure (some (JTree.jnum n))
      | jsStr s => pure (some (JTree.jstr s))
      | jsBigInt _ =>
          Except.error (JsEx.thrown "Do not know how to serialize a BigInt")
      | jsSym _ => pure none
      | jsFn _ => pure none
      | jsCycle =>
          Except.error (JsEx.thrown "Converting circular structure to JSON")
      | jsRegExp _ _ => pure (some (JTree.jobj JFields.fnil))
      | jsPromise => pure (some (JTree.jobj JFields.fnil))
      | jsObj ps => do
          pure (some (JTree.jobj (← serializeJPropsF fuel compact ps)))
      | jsArr its => do
          pure (some (JTree.jarr (← serializeJItemsF fuel compact its)))
      | jsErr (JsErrorV.mk _ _ _ _ ps _) => do
          pure (some (JTree.jobj (← serializeJPropsF fuel compact ps)))

def serializeJPropsF : Nat → Bool → JsProps → Except JsEx JFields
  | 0, _, _ => Except.error .fuelOut
  | _ + 1, _, pnil => pure JFields.fnil
  | fuel + 1, compact, pcons k pv rest => do
      let v ← match pv with
        | JsPropVal.val v => pure v
        | JsPropVal.getterThrows =>
            Except.error (JsEx.thrown "getter threw")
      let t? ← serializeJsonPropertyF fuel compact k v
      let restF ← serializeJPropsF fuel compact rest
      match t? with
      | some t => pure (JFields.fcons k t restF)
      | none => pure restF

def serializeJItemsF : Nat → Bool → JsItems → Except JsEx JItems
  | 0, _, _ => Except.error .fuelOut
  | _ + 1, _, inil => pure JItems.jinil
  | fuel + 1, compact, icons v rest => do
      let t? ← serializeJsonPropertyF fuel compact "" v
      let restT ← serializeJItemsF fuel compact rest
      match t? with
      | some t => pure (JItems.jicons t restT)
      | none => pure (JItems.jicons JTree.jnull restT)

def errorToObjectF : Nat → Bool → JsErrorV → Except JsEx JsProps
  | 0, _, _ => Except.error .fuelOut
  | fuel + 1, compact, JsErrorV.mk name message stack tj props cause => do
      let errObject : JsProps :=
        pcons "name" (JsPropVal.val (jsStr name))
          (pcons "message" (JsPropVal.val (jsStr message))
            (pcons "stack" (JsPropVal.val (jsStr stack)) pnil))
      let errObject ← match tj with
        | throwsTJ => Except.error (JsEx.thrown "toJSON threw")
        | fieldsTJ fs => do
            pure (jsAssignProps errObject (← evalPropsE fs))
        | noTJ => errorExtraPropsF fuel compact errObject props
      errorCauseStepF fuel compact cause errObject

def errorCauseStepF : Nat → Bool → JsCauseV → JsProps → Except JsEx JsProps
  | 0, _, _, _ => Except.error .fuelOut
  | fuel + 1, compact, cause, errObject =>
      match cause with
      | noCause => pure errObject
      | causeVal c =>
        if jsTruthy c then
          match c with
          | jsErr ce => do
              pure (jsSetProp errObject "cause"
                (JsPropVal.val (jsObj (← errorToObjectF fuel compact ce))))
          | _ => do
              pure (jsSetProp errObject "cause"
                (JsPropVal.val (jsStr (← formatLogDataF fuel compact c))))
        else pure errObject

def errorExtraPropsF :
    Nat → Bool → JsProps → JsProps → Except JsEx JsProps
  | 0, _, _, _ => Except.error .fuelOut
  | _ + 1, _, acc, pnil => pure acc
  | fuel + 1, compact, acc, pcons k pv rest =>
      if keyMemP k acc then errorExtraPropsF fuel compact acc rest
      else do
        let v ← match pv with
          | JsPropVal.val v => pure v
          | JsPropVal.getterThrows =>
              Except.error (JsEx.thrown "getter threw")
        let s ← formatLogDataF fuel compact v
        errorExtraPropsF fuel compact
          (jsSetProp acc k (JsPropVal.val (jsStr s))) rest

def formatLogDataF : Nat → Bool → JsVal → Except JsEx String
  | 0, _, _ => Except.error .fuelOut
  | fuel + 1, compact, arg =>
      if typeofV arg != "object" then templateToString arg
      else
        match serializeJsonPropertyF fuel compact "" arg with
        | Except.ok (some t) => pure (printJTree compact t)
        | Except.ok none => pure "undefined"
        | Except.error (JsEx.thrown _) =>
            pure (formatWithInspect compact arg)
        | Except.error JsEx.fuelOut => Except.error JsEx.fuelOut

end

/-- Fuel large enough for every run of the engine on `v`: along any call
chain each consumed fuel unit is matched by a consumed size unit or one
of at most four phase moves on the same node. -/
def jsFuel (v : JsVal) : Nat := 4 * jsSizeV v + 8

/-- `JsonLogFormatter.formatLogData` with the fuel filled in.  `compact`
is the formatter option; the stringify space of the non-compact formatter
is the 2-space indent. -/
def formatLogData (compact : Bool) (arg : JsVal) : Except JsEx String :=
  formatLogDataF (jsFuel arg) compact arg

/-- The exported `errorToObject` with the fuel filled in. -/
def errorToObject (compact : Bool) (e : JsErrorV) : Except JsEx JsProps :=
  errorToObjectF (4 * jsSizeE e + 8) compact e

/-- `JSON.stringify(v, jsonReplacer, space)` with the fuel filled in:
`none` is the undefined result of stringify on an omitted root. -/
def jsonStringify (compact : Bool) (v : JsVal) :
    Except JsEx (Option String) := do
  let t? ← serializeJsonPropertyF (jsFuel v) compact "" v
  pure (t?.map (printJTree compact))

/-- What a caller can pass as `config.logLevel`
(`LogLevel | keyof typeof LogLevel | (string & \x7b\x7d)`). -/
inductive ConfigLevel where
  | lvlNum (n : Int)
  | lvlStr (s : String)
deriving DecidableEq

/-- The runtime value stored into `this.config.logLevel` by the
constructor.  Because the TypeScript `LogLevel` enum object also carries
the reverse mappings ("10" .. "100" map back to the severity names), the
resolution can produce a severity name string at runtime. -/
inductive ResolvedLevel where
  | rNum (n : Int)
  | rStr (s : String)
deriving DecidableEq

/-- Membership and lookup in the emitted `LogLevel` enum object
(`config.logLevel in LogLevel` followed by `LogLevel[config.logLevel]`):
the six severity names map to their numeric values and the six reverse
keys map to the name strings; anything else is not a member. -/
def logLevelMember : String → Option ResolvedLevel
  | "debug" => some (.rNum 10)
  | "info" => some (.rNum 20)
  | "warn" => some (.rNum 30)
  | "error" => some (.rNum 40)
  | "fatal" => some (.rNum 50)
  | "silent" => some (.rNum 100)
  | "10" => some (.rStr "debug")
  | "20" => some (.rStr "info")
  | "30" => some (.rStr "warn")
  | "40" => some (.rStr "error")
  | "50" => some (.rStr "fatal")
  | "100" => some (.rStr "silent")
  | _ => none

def configLevelTruthy : ConfigLevel → Bool
  | .lvlNum n => n != 0
  | .lvlStr s => s != ""

/-- The severity resolution of the `Logger` constructor: start from
`LogLevel.debug`; a truthy numeric `config.logLevel` is taken as-is; a
truthy string that is a key of the enum object is looked up; everything
else keeps the debug default.  The environment is not consulted. -/
def resolveLogLevel : Option ConfigLevel → ResolvedLevel
  | none => .rNum 10
  | some cl =>
      if configLevelTruthy cl then
        match cl with
        | .lvlNum n => .rNum n
        | .lvlStr s => (logLevelMember s).getD (.rNum 10)
      else .rNum 10

/-- `LogContext`: a string-to-string record, in insertion order. -/
def LogContext := List (String × String)
deriving DecidableEq

/-- Assignment into a string record, keeping the insertion position of an
existing key. -/
def ctxSet : LogContext → String → String → LogContext
  | [], k, v => [(k, v)]
  | (k2, v2) :: rest, k, v =>
      if k == k2 then (k2, v) :: rest else (k2, v2) :: ctxSet rest k v

/-- The spread overlay of two string records (later keys win). -/
def recordMerge (a b : LogContext) : LogContext :=
  b.foldl (fun acc kv => ctxSet acc kv.1 kv.2) a

/-- The state of the module-level `AsyncLocalStorage` of
`async-context.ts`: `none` while the lazy `storage` variable is still
undefined, otherwise the store that `getStore()` returns for the current
execution (undefined outside every `run`). -/
def StoreState := Option (Option LogContext)
deriving DecidableEq

/-- `getLogContext`: undefined when the storage was never created,
otherwise the current store. -/
def getLogContext : StoreState → Option LogContext
  | none => none
  | some cur => cur

/-- `runWithContext`: captures the parent context, overlays it with the
supplied partial context (new keys win) and runs the handler with the
merged record as the current store.  `AsyncLocalStorage.run` restores the
previous store when the handler returns, so the final state carries the
captured parent context again (the storage stays initialized). -/
def runWithContext {α : Type} (logContext : LogContext)
    (handlerFn : StoreState → α × StoreState) (s : StoreState) :
    α × StoreState :=
  let parentContext := getLogContext s
  let mergedContext := recordMerge (parentContext.getD []) logContext
  let a := (handlerFn (some (some mergedContext))).1
  (a, some parentContext)

/-- `mutateContextScope`: a no-op without an active context, otherwise an
in-place `Object.assign` into the current context record. -/
def mutateContextScope (additionalScope : LogContext) (s : StoreState) :
    StoreState :=
  match getLogContext s with
  | none => s
  | some cur => some (some (recordMerge cur additionalScope))

/-- A `Logger` after construction (`ResolvedLogConfig`): the optional
scope record, the resolved severity threshold, the formatter (represented
by its `compact` option), the configured transport (opaque here: `log`
never invokes it) and the optional `getLogContext` accessor, modelled by
the value it returns at the call (`none` = no accessor configured). -/
structure Logger where
  scope : Option JsProps
  logLevel : ResolvedLevel
  compact : Bool
  transport : String
  contextResult : Option (Option LogContext)

/-- The `Logger` constructor: resolves the severity threshold and stores
the rest of the configuration untouched. -/
def mkLogger (scope : Option JsProps) (logLevel : Option ConfigLevel)
    (compact : Bool) (transport : String)
    (contextResult : Option (Option LogContext)) : Logger :=
  ⟨scope, resolveLogLevel logLevel, compact, transport, contextResult⟩

/-- `Logger.child`: a new logger whose scope is
`\x7b...this.config.scope, ...scope\x7d` (the spreads read the
properties, so a throwing getter propagates), everything else
inherited. -/
def childE (L : Logger) (scope : JsProps) : Except JsEx Logger := do
  let parent ← evalPropsE (L.scope.getD pnil)
  let added ← evalPropsE scope
  pure { L with scope := some (jsAssignProps parent added) }

/-- The record `getLogData` assembles, with the two optional fields in
the insertion order of the source: `context` is set before `data`. -/
structure LogRecord where
  level : Int
  message : String
  context : Option LogContext
  data : Option JsProps

/-- `Logger.getLogData`.  The context accessor result is attached
whenever it is truthy (any returned record, the empty one included).  The
`data` field exists iff `data || scope` is truthy; it is built by
spreading the scope first and assigning the call-site data second: an
`Error` goes through `formatter.formatError` (that is `errorToObject`), a
plain object contributes its own enumerable properties, anything else is
wrapped as `\x7b data \x7d`. -/
def getLogDataE (L : Logger) (level : Int) (message : String)
    (data : JsVal) : Except JsEx LogRecord := do
  let logContext : Option LogContext :=
    match L.contextResult with
    | none => none
    | some r => r
  if jsTruthy data || L.scope.isSome then do
    let dataToAdd ← evalPropsE (L.scope.getD pnil)
    let dataToAdd ←
      match data with
      | jsErr e => do
          pure (jsAssignProps dataToAdd
            (← errorToObjectF (4 * jsSizeE e + 8) L.compact e))
      | d =>
          if isObject d then do
            pure (jsAssignProps dataToAdd (← evalPropsE (ownEnumProps d)))
          else
            pure (jsAssignProps dataToAdd
              (pcons "data" (JsPropVal.val d) pnil))
    pure ⟨level, message, logContext, some dataToAdd⟩
  else
    pure ⟨level, message, logContext, none⟩

def ctxToProps : LogContext → JsProps
  | [] => pnil
  | (k, v) :: rest => pcons k (JsPropVal.val (jsStr v)) (ctxToProps rest)

/-- The assembled record as the runtime object handed to
`formatter.formatLogData`, keys in insertion order
`level, message, context?, data?`. -/
def recordToJsVal (r : LogRecord) : JsVal :=
  let tail1 : JsProps :=
    match r.data with
    | some ps => pcons "data" (JsPropVal.val (jsObj ps)) pnil
    | none => pnil
  let tail2 : JsProps :=
    match r.context with
    | some ctx => pcons "context" (JsPropVal.val (jsObj (ctxToProps ctx))) tail1
    | none => tail1
  jsObj (pcons "level" (JsPropVal.val (jsNum r.level))
    (pcons "message" (JsPropVal.val (jsStr r.message)) tail2))

/-- What one call emits: the lines written with `console.log` and the
lines delivered to the configured transport through `writeLog`. -/
structure LogOutput where
  consoleLines : List String
  sinkLines : List String
deriving DecidableEq

/-- The comparison `verbosity < this.config.logLevel`.  When the resolved
level is a name string (the enum reverse-mapping case) the numeric
comparison against a non-numeric string is false, as in JavaScript. -/
def jsLtLevel (v : Int) : ResolvedLevel → Bool
  | .rNum n => decide (v < n)
  | .rStr _ => false

/-- `Logger.log`: return early when the verbosity is below the threshold;
otherwise assemble the record and write the formatted line with
`console.log`.  The configured transport is never invoked. -/
def logE (L : Logger) (verbosity : Int) (message : String) (data : JsVal) :
    Except JsEx LogOutput :=
  if jsLtLevel verbosity L.logLevel then pure ⟨[], []⟩
  else do
    let logData ← getLogDataE L verbosity message data
    let line ← formatLogData L.compact (recordToJsVal logData)
    pure ⟨[line], []⟩

def debugE (L : Logger) (message : String) (data : JsVal) :=
  logE L 10 message data

def infoE (L : Logger) (message : String) (data : JsVal) :=
  logE L 20 message data

def warnE (L : Logger) (message : String) (data : JsVal) :=
  logE L 30 message data

def errorE (L : Logger) (message : String) (data : JsVal) :=
  logE L 40 message data

def fatalE (L : Logger) (message : String) (data : JsVal) :=
  logE L 50 message data

/-- `Logger.silent`: do nothing, be silent. -/
def silentRun (_L : Logger) : LogOutput := ⟨[], []⟩

/-- One `log` call as a state step: the emitted output together with the
logger afterwards.  The method only reads `this.config`; record assembly
targets the fresh `dataToAdd` object, so the logger is returned
unchanged. -/
def logStep (L : Logger) (verbosity : Int) (message : String)
    (data : JsVal) : Except JsEx LogOutput × Logger :=
  (logE L verbosity message data, L)

/-- Runtime objects carry each key at most once; the merge lemmas assume
this of their sources. -/
def nodupKeysP : JsProps → Bool
  | pnil => true
  | pcons k _ rest => !keyMemP k rest && nodupKeysP rest

theorem lookupP_jsSetProp_self :
    ∀ (a : JsProps) (k : String) (v : JsPropVal),
      lookupP k (jsSetProp a k v) = some v
  | pnil, k, v => by simp [jsSetProp, lookupP]
  | pcons k2 v2 rest, k, v => by
      by_cases h : k = k2
      · subst h; simp [jsSetProp, lookupP]
      · simp [jsSetProp, lookupP, h, beq_iff_eq,
          lookupP_jsSetProp_self rest k v]

theorem lookupP_jsSetProp_ne :
    ∀ (a : JsProps) (k k2 : String) (v : JsPropVal), k ≠ k2 →
      lookupP k (jsSetProp a k2 v) = lookupP k a
  | pnil, k, k2, v, h => by simp [jsSetProp, lookupP, beq_iff_eq, h]
  | pcons k3 v3 rest, k, k2, v, h => by
      by_cases h2 : k2 = k3
      · subst h2; simp [jsSetProp, lookupP, beq_iff_eq, h]
      · by_cases h3 : k = k3
        · subst h3; simp [jsSetProp, lookupP, beq_iff_eq, h2, Ne.symm h2]
        · simp [jsSetProp, lookupP, beq_iff_eq, h2, h3,
            lookupP_jsSetProp_ne rest k k2 v h]

theorem lookupP_jsAssignProps_not_mem :
    ∀ (b a : JsProps) (k : String), keyMemP k b = false →
      lookupP k (jsAssignProps a b) = lookupP k a
  | pnil, a, k, _ => by simp [jsAssignProps]
  | pcons k2 v rest, a, k, h => by
      simp only [keyMemP, Bool.or_eq_false_iff] at h
      have hk : k ≠ k2 := by
        intro he; subst he; simp at h
      simp only [jsAssignProps]
      rw [lookupP_jsAssignProps_not_mem rest _ _ h.2]
      exact lookupP_jsSetProp_ne a k k2 v hk

theorem lookupP_jsAssignProps_mem :
    ∀ (b a : JsProps) (k : String), nodupKeysP b = true →
      keyMemP k b = true →
      lookupP k (jsAssignProps a b) = lookupP k b
  | pnil, a, k, _, h => by simp [keyMemP] at h
  | pcons k2 v rest, a, k, hnd, h => by
      have hnd2 : nodupKeysP rest = true := by
        simp only [nodupKeysP, Bool.and_eq_true] at hnd
        exact hnd.2
      by_cases he : k = k2
      · subst he
        have hrest : keyMemP k rest = false := by
          simp only [nodupKeysP, Bool.and_eq_true, Bool.not_eq_true'] at hnd
          exact hnd.1
        simp only [jsAssignProps, lookupP, beq_self_eq_true, if_pos]
        rw [lookupP_jsAssignProps_not_mem rest _ _ hrest]
        exact lookupP_jsSetProp_self a k v
      · have hr : keyMemP k rest = true := by
          simp only [keyMemP, Bool.or_eq_true, beq_iff_eq] at h
          rcases h with h | h
          · exact absurd h he
          · exact h
        simp only [jsAssignProps]
        rw [lookupP_jsAssignProps_mem rest _ _ hnd2 hr]
        simp [lookupP, beq_iff_eq, he]

/-- C4, counterexample: the claim maps every input that is not a Severity
enum value and not a severity name to `debug`, but the constructor keeps
an arbitrary truthy number as-is: `42` is not one of the six Severity
values, yet resolution stores `42`, not `debug` (10). -/
theorem c4_counterexample_number_kept :
    resolveLogLevel (some (ConfigLevel.lvlNum 42)) = ResolvedLevel.rNum 42
    ∧ (42 : Int) ∉ ([10, 20, 30, 40, 50, 100] : List Int)
    ∧ resolveLogLevel (some (ConfigLevel.lvlNum 42)) ≠ ResolvedLevel.rNum 10 := by
  refine ⟨rfl, by decide, by decide⟩

/-- C4, amended: severity resolution is deterministic and total, computed
from the configured logLevel alone (the constructor reads no environment
variable): a truthy number is stored as-is even when it is not a Severity
value; a case-sensitive severity name maps to its numeric value; a
numeric reverse-mapping key of the TypeScript enum object maps to the
corresponding severity name string; every other input (absent, zero, the
empty string, an unrecognized string) resolves to debug (10). -/
theorem c4_resolution_characterization :
    (∀ n : Int, n ≠ 0 →
      resolveLogLevel (some (ConfigLevel.lvlNum n)) = ResolvedLevel.rNum n)
    ∧ (resolveLogLevel (some (ConfigLevel.lvlStr "debug")) = ResolvedLevel.rNum 10
      ∧ resolveLogLevel (some (ConfigLevel.lvlStr "info")) = ResolvedLevel.rNum 20
      ∧ resolveLogLevel (some (ConfigLevel.lvlStr "warn")) = ResolvedLevel.rNum 30
      ∧ resolveLogLevel (some (ConfigLevel.lvlStr "error")) = ResolvedLevel.rNum 40
      ∧ resolveLogLevel (some (ConfigLevel.lvlStr "fatal")) = ResolvedLevel.rNum 50
      ∧ resolveLogLevel (some (ConfigLevel.lvlStr "silent")) = ResolvedLevel.rNum 100)
    ∧ (resolveLogLevel (some (ConfigLevel.lvlStr "10")) = ResolvedLevel.rStr "debug"
      ∧ resolveLogLevel (some (ConfigLevel.lvlStr "100")) = ResolvedLevel.rStr "silent")
    ∧ (∀ s : String, logLevelMember s = none →
      resolveLogLevel (some (ConfigLevel.lvlStr s)) = ResolvedLevel.rNum 10)
    ∧ resolveLogLevel none = ResolvedLevel.rNum 10
    ∧ resolveLogLevel (some (ConfigLevel.lvlNum 0)) = ResolvedLevel.rNum 10
    ∧ resolveLogLevel (some (ConfigLevel.lvlStr "")) = ResolvedLevel.rNum 10 := by
  refine ⟨?_, ⟨rfl, rfl, rfl, rfl, rfl, rfl⟩, ⟨rfl, rfl⟩, ?_, rfl, rfl, rfl⟩
  · intro n hn
    simp [resolveLogLevel, configLevelTruthy, hn]
  · intro s hs
    by_cases he : s = ""
    · subst he; rfl
    · simp [resolveLogLevel, configLevelTruthy, he, hs]

theorem c4_resolution_witness :
    resolveLogLevel (some (ConfigLevel.lvlNum 30)) = ResolvedLevel.rNum 30
    ∧ resolveLogLevel (some (ConfigLevel.lvlStr "banana")) = ResolvedLevel.rNum 10 :=
  ⟨c4_resolution_characterization.1 30 (by decide),
   c4_resolution_characterization.2.2.2.1 "banana" rfl⟩

/-- C7: `runWithContext` overlays the caller context (or empty) with the
supplied partial context, makes the merged record the ambient context for
the body, and on exit the ambient context reverts to what was active
before; the nested concrete example returns the merged record, and after
both blocks exit `getLogContext` returns nothing. -/
theorem c7_runWithContext_overlay_and_revert :
    (∀ (α : Type) (lc : LogContext) (body : StoreState → α × StoreState)
      (s : StoreState),
      getLogContext (runWithContext lc body s).2 = getLogContext s)
    ∧ (∀ (lc : LogContext) (s : StoreState),
      (runWithContext lc (fun st => (getLogContext st, st)) s).1
        = some (recordMerge ((getLogContext s).getD []) lc))
    ∧ (runWithContext [("requestId", "X")]
        (fun s1 => runWithContext [("jobId", "Y")]
          (fun s2 => (getLogContext s2, s2)) s1) (none : StoreState)
        = (some [("requestId", "X"), ("jobId", "Y")], some none))
    ∧ getLogContext (some none) = none := by
  refine ⟨?_, ?_, rfl, rfl⟩
  · intro α lc body s
    simp [runWithContext, getLogContext]
  · intro lc s
    simp [runWithContext, getLogContext]

/-- C10: emitting never mutates the logger: `log` only reads the stored
configuration, merging scope and data into a fresh object, so the logger
(and in particular its scope) is unchanged by a call and two successive
identical calls produce identical results. -/
theorem c10_log_preserves_logger :
    ∀ (L : Logger) (v : Int) (msg : String) (data : JsVal),
      (logStep L v msg data).2 = L
      ∧ (logStep L v msg data).2.scope = L.scope
      ∧ logStep (logStep L v msg data).2 v msg data = logStep L v msg data := by
  intro L v msg data
  exact ⟨rfl, rfl, rfl⟩

/-- C2: with a numeric resolved threshold `t`, a call below `t` returns
without any write; a call at or above `t` that completes writes exactly
one line; any call that produced a write was at or above `t`; with the
concrete warn threshold, debug and info write nothing while warn, error
and fatal write one line each; a silent (100) threshold suppresses all
five per-severity calls; and `silent()` never writes. -/
theorem c2_severity_filtering :
    (∀ (L : Logger) (t v : Int) (msg : String) (data : JsVal),
      L.logLevel = ResolvedLevel.rNum t → v < t →
      logE L v msg data = Except.ok ⟨[], []⟩)
    ∧ (∀ (L : Logger) (t v : Int) (msg : String) (data : JsVal)
        (out : LogOutput),
      L.logLevel = ResolvedLevel.rNum t → t ≤ v →
      logE L v msg data = Except.ok out → out.consoleLines.length = 1)
    ∧ (∀ (L : Logger) (t v : Int) (msg : String) (data : JsVal)
        (out : LogOutput),
      L.logLevel = ResolvedLevel.rNum t →
      logE L v msg data = Except.ok out → out.consoleLines ≠ [] → t ≤ v)
    ∧ ((debugE (mkLogger none (some (ConfigLevel.lvlNum 30)) true "sink" none)
          "m" undef = Except.ok ⟨[], []⟩)
      ∧ (infoE (mkLogger none (some (ConfigLevel.lvlNum 30)) true "sink" none)
          "m" undef = Except.ok ⟨[], []⟩)
      ∧ ((warnE (mkLogger none (some (ConfigLevel.lvlNum 30)) true "sink" none)
          "m" undef).map (fun o => o.consoleLines.length) = Except.ok 1)
      ∧ ((errorE (mkLogger none (some (ConfigLevel.lvlNum 30)) true "sink" none)
          "m" undef).map (fun o => o.consoleLines.length) = Except.ok 1)
      ∧ ((fatalE (mkLogger none (some (ConfigLevel.lvlNum 30)) true "sink" none)
          "m" undef).map (fun o => o.consoleLines.length) = Except.ok 1))
    ∧ (∀ (L : Logger) (msg : String) (data : JsVal),
      L.logLevel = ResolvedLevel.rNum 100 →
      debugE L msg data = Except.ok ⟨[], []⟩
      ∧ infoE L msg data = Except.ok ⟨[], []⟩
      ∧ warnE L msg data = Except.ok ⟨[], []⟩
      ∧ errorE L msg data = Except.ok ⟨[], []⟩
      ∧ fatalE L msg data = Except.ok ⟨[], []⟩)
    ∧ (∀ L : Logger, silentRun L = ⟨[], []⟩) := by
  have filt : ∀ (L : Logger) (t v : Int) (msg : String) (data : JsVal),
      L.logLevel = ResolvedLevel.rNum t → v < t →
      logE L v msg data = Except.ok ⟨[], []⟩ := by
    intro L t v msg data h1 h2
    simp [logE, h1, jsLtLevel, h2, pure, Except.pure]
  have emit1 : ∀ (L : Logger) (t v : Int) (msg : String) (data : JsVal)
      (out : LogOutput),
      L.logLevel = ResolvedLevel.rNum t → t ≤ v →
      logE L v msg data = Except.ok out → out.consoleLines.length = 1 := by
    intro L t v msg data out h1 h2 h3
    have hng : ¬ (v < t) := not_lt.mpr h2
    simp only [logE, h1, jsLtLevel, decide_eq_true_eq] at h3
    rw [if_neg hng] at h3
    cases hd : getLogDataE L v msg data with
    | error e =>
        rw [hd] at h3
        simp [bind, Except.bind] at h3
    | ok logData =>
        rw [hd] at h3
        simp only [bind, Except.bind] at h3
        cases hf : formatLogData L.compact (recordToJsVal logData) with
        | error e =>
            rw [hf] at h3
            simp [bind, Except.bind, Functor.map, Except.map] at h3
        | ok line =>
            rw [hf] at h3
            simp only [bind, Except.bind, Functor.map, Except.map, pure,
              Except.pure, Except.ok.injEq] at h3
            subst h3
            rfl
  refine ⟨filt, emit1, ?_, ?_, ?_, fun _ => rfl⟩
  · intro L t v msg data out h1 h2 h3
    by_contra hlt
    have h4 := filt L t v msg data h1 (not_le.mp hlt)
    rw [h2] at h4
    cases h4
    exact h3 rfl
  · refine ⟨?_, ?_, ?_, ?_, ?_⟩
    · exact filt _ 30 10 "m" undef rfl (by decide)
    · exact filt _ 30 20 "m" undef rfl (by decide)
    · rfl
    · rfl
    · rfl
  · intro L msg data h1
    exact ⟨filt L 100 10 msg data h1 (by decide),
      filt L 100 20 msg data h1 (by decide),
      filt L 100 30 msg data h1 (by decide),
      filt L 100 40 msg data h1 (by decide),
      filt L 100 50 msg data h1 (by decide)⟩

theorem c2_severity_filtering_witness :
    logE (mkLogger none (some (ConfigLevel.lvlNum 30)) true "sink" none)
      10 "m" undef = Except.ok ⟨[], []⟩ :=
  c2_severity_filtering.1
    (mkLogger none (some (ConfigLevel.lvlNum 30)) true "sink" none)
    30 10 "m" undef rfl (by decide)

/-- C1: `formatLogData` does NOT return a string for every input: a
top-level symbol hits the non-object branch, whose template literal
conversion throws a TypeError outside the try/catch.  The faults of the
JSON-stringify path are recovered as the claim says: a cyclic object, an
object with a throwing getter and an error with a throwing `toJSON` all
fall back to the inspection renderer instead of throwing. -/
theorem c1_formatLogData_symbol_escapes_catch :
    formatLogData false (jsSym "test")
      = Except.error
          (JsEx.thrown "TypeError: Cannot convert a Symbol to a string")
    ∧ formatLogData false
        (jsObj (pcons "name" (JsPropVal.val (jsStr "circular"))
          (pcons "self" (JsPropVal.val jsCycle) pnil)))
      = Except.ok (formatWithInspect false
          (jsObj (pcons "name" (JsPropVal.val (jsStr "circular"))
            (pcons "self" (JsPropVal.val jsCycle) pnil))))
    ∧ formatLogData false
        (jsObj (pcons "normal" (JsPropVal.val (jsStr "value"))
          (pcons "problematic" JsPropVal.getterThrows pnil)))
      = Except.ok (formatWithInspect false
          (jsObj (pcons "normal" (JsPropVal.val (jsStr "value"))
            (pcons "problematic" JsPropVal.getterThrows pnil))))
    ∧ formatLogData false
        (jsErr (JsErrorV.mk "Error" "boom" "stack0" throwsTJ pnil noCause))
      = Except.ok (formatWithInspect false
          (jsErr (JsErrorV.mk "Error" "boom" "stack0" throwsTJ pnil noCause))) :=
  ⟨rfl, rfl, rfl, rfl⟩

/-- C3: an emitting call on a logger configured with an injected
transport delivers zero lines to that transport: the single rendered line
goes to the console (`console.log`), and `writeLog` is never invoked.
Moreover a rendering failure can propagate to the caller: logging an
error value that carries a symbol-valued enumerable property makes the
`formatError` path throw out of `log`. -/
theorem c3_log_bypasses_transport :
    logE (mkLogger none (some (ConfigLevel.lvlNum 30)) true "injectedSink"
        none) 30 "warn message" undef
      = Except.ok ⟨["\x7b\"level\":30,\"message\":\"warn message\"\x7d"], []⟩
    ∧ (logE (mkLogger none (some (ConfigLevel.lvlNum 30)) true "injectedSink"
        none) 30 "warn message" undef).map (fun o => o.sinkLines.length)
      = Except.ok 0
    ∧ logE (mkLogger none (some (ConfigLevel.lvlNum 30)) true "injectedSink"
        none) 40 "failed"
        (jsErr (JsErrorV.mk "Error" "bruh" "st" noTJ
          (pcons "weird" (JsPropVal.val (jsSym "s")) pnil) noCause))
      = Except.error
          (JsEx.thrown "TypeError: Cannot convert a Symbol to a string") :=
  ⟨rfl, rfl, rfl⟩

/-- C5, counterexample: with no scope configured and the falsy call-site
value `0`, `data || scope` is falsy, so the assembled record has NO data
field at all, where the claim requires the wrapped `\x7b data: 0 \x7d`. -/
theorem c5_counterexample_falsy_data_dropped :
    (getLogDataE (mkLogger none (some (ConfigLevel.lvlNum 10)) true "t" none)
        20 "m" (jsNum 0)).map (fun r => r.data) = Except.ok none
    ∧ (Except.ok (none : Option JsProps) : Except JsEx (Option JsProps))
        ≠ Except.ok (some (pcons "data" (JsPropVal.val (jsNum 0)) pnil)) := by
  refine ⟨rfl, ?_⟩
  intro h
  simp at h

/-- C5, amended: whenever the call-site data or the configured scope is
truthy, the record data is the scope spread first overlaid by the
call-site contribution second, so call-site keys win on every conflict
(and keys only in the scope survive); the concrete scope chain
`\x7ba:1\x7d`, child `\x7bb:2\x7d`, call-site `\x7bb:3,c:4\x7d` yields
`\x7ba:1,b:3,c:4\x7d`; error-like data is converted by `errorToObject`
and merged; a truthy non-composite is wrapped under a single `data` key;
but when the call-site data is falsy and no scope object is present, the
record carries no data field. -/
theorem c5_scope_then_data_merge :
    (∀ (a b : JsProps) (k : String), nodupKeysP b = true →
      keyMemP k b = true →
      lookupP k (jsAssignProps a b) = lookupP k b)
    ∧ (∀ (a b : JsProps) (k : String), keyMemP k b = false →
      lookupP k (jsAssignProps a b) = lookupP k a)
    ∧ (((childE (mkLogger (some (pcons "a" (JsPropVal.val (jsNum 1)) pnil))
          (some (ConfigLevel.lvlNum 10)) true "t" none)
          (pcons "b" (JsPropVal.val (jsNum 2)) pnil)).bind
        (fun L2 => getLogDataE L2 10 "m"
          (jsObj (pcons "b" (JsPropVal.val (jsNum 3))
            (pcons "c" (JsPropVal.val (jsNum 4)) pnil))))).map
          (fun r => r.data)
        = Except.ok (some (pcons "a" (JsPropVal.val (jsNum 1))
            (pcons "b" (JsPropVal.val (jsNum 3))
              (pcons "c" (JsPropVal.val (jsNum 4)) pnil)))))
    ∧ (∀ (L : Logger) (lvl : Int) (msg : String) (d : JsVal),
      L.scope = none → jsTruthy d = false →
      (getLogDataE L lvl msg d).map (fun r => r.data) = Except.ok none)
    ∧ (∀ (L : Logger) (lvl : Int) (msg : String) (d : JsVal),
      L.scope = none → jsTruthy d = true → isObject d = false →
      (∀ e, d ≠ jsErr e) →
      (getLogDataE L lvl msg d).map (fun r => r.data)
        = Except.ok (some (pcons "data" (JsPropVal.val d) pnil)))
    ∧ ((getLogDataE (mkLogger (some (pcons "a" (JsPropVal.val (jsNum 1)) pnil))
          (some (ConfigLevel.lvlNum 10)) true "t" none) 40 "oops"
          (jsErr (JsErrorV.mk "Error" "test error" "stk" noTJ pnil noCause))).map
          (fun r => r.data)
        = Except.ok (some (pcons "a" (JsPropVal.val (jsNum 1))
            (pcons "name" (JsPropVal.val (jsStr "Error"))
              (pcons "message" (JsPropVal.val (jsStr "test error"))
                (pcons "stack" (JsPropVal.val (jsStr "stk")) pnil)))))) := by
  refine ⟨fun a b k hnd hm => lookupP_jsAssignProps_mem b a k hnd hm,
    fun a b k h => lookupP_jsAssignProps_not_mem b a k h, rfl, ?_, ?_, rfl⟩
  · intro L lvl msg d hs hd
    simp [getLogDataE, hs, hd, pure, Except.pure, Except.map]
  · intro L lvl msg d hs hd hobj hne
    cases d with
    | jsErr e => exact absurd rfl (hne e)
    | jsObj ps => simp [isObject, jsTruthy, typeofV, isArrayV] at hobj hd
    | _ =>
        simp_all [getLogDataE, jsTruthy, isObject, typeofV, isArrayV,
          evalPropsE, jsAssignProps, jsSetProp, pure, Except.pure,
          Except.map, bind, Except.bind, Option.getD]

theorem c5_scope_then_data_merge_witness :
    lookupP "b" (jsAssignProps (pcons "a" (JsPropVal.val (jsNum 1)) pnil)
        (pcons "b" (JsPropVal.val (jsNum 3)) pnil))
      = lookupP "b" (pcons "b" (JsPropVal.val (jsNum 3)) pnil)
    ∧ (getLogDataE (mkLogger none (some (ConfigLevel.lvlNum 10)) true "t" none)
        20 "m" (jsStr "hello")).map (fun r => r.data)
      = Except.ok (some (pcons "data" (JsPropVal.val (jsStr "hello")) pnil)) :=
  ⟨c5_scope_then_data_merge.1 _ _ "b" rfl rfl,
   c5_scope_then_data_merge.2.2.2.2.1 _ 20 "m" (jsStr "hello") rfl rfl rfl
     (fun _ h => nomatch h)⟩

theorem keyMemP_jsSetProp :
    ∀ (a : JsProps) (k k2 : String) (v : JsPropVal),
      keyMemP k (jsSetProp a k2 v) = (keyMemP k a || k == k2)
  | pnil, k, k2, v => by simp [jsSetProp, keyMemP]
  | pcons k3 v3 rest, k, k2, v => by
      by_cases h : k2 = k3
      · subst h
        simp only [jsSetProp, beq_self_eq_true, if_pos, keyMemP]
        cases hk : (k == k2) <;> simp [hk]
      · simp only [jsSetProp, beq_iff_eq, h, if_false, keyMemP,
          keyMemP_jsSetProp rest k k2 v]
        cases hk : (k == k3) <;> simp [hk, Bool.or_assoc]

theorem keyMemP_jsAssignProps_left :
    ∀ (b a : JsProps) (k : String), keyMemP k a = true →
      keyMemP k (jsAssignProps a b) = true
  | pnil, a, k, h => by simpa [jsAssignProps] using h
  | pcons k2 v rest, a, k, h => by
      simp only [jsAssignProps]
      exact keyMemP_jsAssignProps_left rest _ _
        (by simp [keyMemP_jsSetProp, h])

theorem exceptBindPure {ε α : Type} (x : Except ε α) :
    Except.bind x pure = x := by
  cases x <;> rfl

theorem bindSetKeyMem {β : Type} (m : Except JsEx β) (f : β → JsPropVal)
    (errObject ps : JsProps) (k : String)
    (hm : keyMemP k errObject = true)
    (h : Except.bind m (fun x =>
      pure (jsSetProp errObject "cause" (f x))) = Except.ok ps) :
    keyMemP k ps = true := by
  cases m with
  | error e => simp [Except.bind] at h
  | ok b =>
      simp only [Except.bind, pure, Except.pure, Except.ok.injEq] at h
      subst h
      simp [keyMemP_jsSetProp, hm]

theorem errorExtraPropsF_keyMem :
    ∀ (props : JsProps) (fuel : Nat) (compact : Bool)
      (acc res : JsProps) (k : String),
      keyMemP k acc = true →
      errorExtraPropsF fuel compact acc props = Except.ok res →
      keyMemP k res = true
  | _, 0, _, _, _, _, _, h2 => by simp [errorExtraPropsF] at h2
  | pnil, _ + 1, _, acc, res, k, h, h2 => by
      simp only [errorExtraPropsF, pure, Except.pure, Except.ok.injEq] at h2
      subst h2; exact h
  | pcons k2 pv rest, fuel + 1, compact, acc, res, k, h, h2 => by
      simp only [errorExtraPropsF] at h2
      by_cases hm : keyMemP k2 acc = true
      · rw [if_pos hm] at h2
        exact errorExtraPropsF_keyMem rest fuel compact acc res k h h2
      · rw [if_neg hm] at h2
        cases pv with
        | getterThrows => simp [bind, Except.bind] at h2
        | val v =>
            simp only [bind, Except.bind, pure, Except.pure] at h2
            cases hs : formatLogDataF fuel compact v with
            | error e => rw [hs] at h2; simp at h2
            | ok s =>
                rw [hs] at h2
                exact errorExtraPropsF_keyMem rest fuel compact _ res k
                  (by simp [keyMemP_jsSetProp, h]) h2


theorem errorCauseStepF_keyMem :
    ∀ (fuel : Nat) (compact : Bool) (cause : JsCauseV)
      (errObject ps : JsProps) (k : String),
      keyMemP k errObject = true →
      errorCauseStepF fuel compact cause errObject = Except.ok ps →
      keyMemP k ps = true := by
  intro fuel compact cause errObject ps k hm h
  match fuel with
  | 0 => simp [errorCauseStepF] at h
  | fuel + 1 =>
    cases cause with
    | noCause =>
        simp only [errorCauseStepF, pure, Except.pure, Except.ok.injEq] at h
        subst h; exact hm
    | causeVal c =>
        simp only [errorCauseStepF] at h
        by_cases ht : jsTruthy c = true
        · simp only [ht, if_true] at h
          cases c with
          | jsErr ce =>
              exact bindSetKeyMem _ (fun x => JsPropVal.val (jsObj x))
                _ _ _ hm (by simpa [bind, Except.bind] using h)
          | jsObj ps2 =>
              exact bindSetKeyMem _ (fun s => JsPropVal.val (jsStr s))
                _ _ _ hm (by simpa [bind, Except.bind] using h)
          | _ =>
              exact bindSetKeyMem _ (fun s => JsPropVal.val (jsStr s))
                _ _ _ hm (by simpa [bind, Except.bind] using h)
        · rw [if_neg ht] at h
          simp only [pure, Except.pure, Except.ok.injEq] at h
          subst h; exact hm

theorem errorToObjectF_std_keys :
    ∀ (fuel : Nat) (compact : Bool) (e : JsErrorV) (ps : JsProps),
      errorToObjectF fuel compact e = Except.ok ps →
      keyMemP "name" ps = true ∧ keyMemP "message" ps = true
        ∧ keyMemP "stack" ps = true := by
  intro fuel compact e ps h
  match fuel, e with
  | 0, _ => simp [errorToObjectF] at h
  | fuel + 1, JsErrorV.mk name message stack tj props cause =>
    have hb1 : keyMemP "name" (pcons "name" (JsPropVal.val (jsStr name))
        (pcons "message" (JsPropVal.val (jsStr message))
          (pcons "stack" (JsPropVal.val (jsStr stack)) pnil))) = true := rfl
    have hb2 : keyMemP "message" (pcons "name" (JsPropVal.val (jsStr name))
        (pcons "message" (JsPropVal.val (jsStr message))
          (pcons "stack" (JsPropVal.val (jsStr stack)) pnil))) = true := rfl
    have hb3 : keyMemP "stack" (pcons "name" (JsPropVal.val (jsStr name))
        (pcons "message" (JsPropVal.val (jsStr message))
          (pcons "stack" (JsPropVal.val (jsStr stack)) pnil))) = true := rfl
    cases tj with
    | throwsTJ => simp [errorToObjectF, bind, Except.bind] at h
    | fieldsTJ fs =>
        simp only [errorToObjectF, bind, Except.bind] at h
        cases hev : evalPropsE fs with
        | error e2 => rw [hev] at h; simp at h
        | ok fs2 =>
            rw [hev] at h
            simp only [pure, Except.pure] at h
            exact ⟨errorCauseStepF_keyMem fuel compact cause _ ps "name"
                (keyMemP_jsAssignProps_left fs2 _ _ hb1) h,
              errorCauseStepF_keyMem fuel compact cause _ ps "message"
                (keyMemP_jsAssignProps_left fs2 _ _ hb2) h,
              errorCauseStepF_keyMem fuel compact cause _ ps "stack"
                (keyMemP_jsAssignProps_left fs2 _ _ hb3) h⟩
    | noTJ =>
        simp only [errorToObjectF, bind, Except.bind] at h
        cases hext : errorExtraPropsF fuel compact
            (pcons "name" (JsPropVal.val (jsStr name))
              (pcons "message" (JsPropVal.val (jsStr message))
                (pcons "stack" (JsPropVal.val (jsStr stack)) pnil))) props with
        | error e2 => rw [hext] at h; simp at h
        | ok acc =>
            rw [hext] at h
            exact ⟨errorCauseStepF_keyMem fuel compact cause acc ps "name"
                (errorExtraPropsF_keyMem props fuel compact _ acc "name" hb1 hext) h,
              errorCauseStepF_keyMem fuel compact cause acc ps "message"
                (errorExtraPropsF_keyMem props fuel compact _ acc "message" hb2 hext) h,
              errorCauseStepF_keyMem fuel compact cause acc ps "stack"
                (errorExtraPropsF_keyMem props fuel compact _ acc "stack" hb3 hext) h⟩

/-- C6, counterexample: the claim attaches every non-error cause value as
rendered text, but the guard `if (error.cause)` is a truthiness test: an
error whose cause is the empty string (a legitimate cause value whose
rendering succeeds and is the empty string) produces a mapping with NO
`cause` key at all. -/
theorem c6_counterexample_falsy_cause_dropped :
    errorToObject true
        (JsErrorV.mk "Error" "main error" "st" noTJ pnil
          (causeVal (jsStr "")))
      = Except.ok (pcons "name" (JsPropVal.val (jsStr "Error"))
          (pcons "message" (JsPropVal.val (jsStr "main error"))
            (pcons "stack" (JsPropVal.val (jsStr "st")) pnil)))
    ∧ keyMemP "cause"
        (pcons "name" (JsPropVal.val (jsStr "Error"))
          (pcons "message" (JsPropVal.val (jsStr "main error"))
            (pcons "stack" (JsPropVal.val (jsStr "st")) pnil))) = false
    ∧ formatLogData true (jsStr "") = Except.ok "" :=
  ⟨rfl, rfl, rfl⟩

/-- C6, amended: every successful error-to-mapping conversion contains at
minimum the keys `name`, `message` and `stack`; a `toJSON` result is
merged in and wins on matching keys; an extra enumerable property is
copied in through the render path; a TRUTHY non-error cause is rendered
to text and attached under `cause` (a falsy cause is dropped); an
error-like cause is converted recursively, so the two-level chain
top -> middle -> root yields `cause.cause.message = "Root cause"`. -/
theorem c6_errorToObject_structure :
    (∀ (fuel : Nat) (compact : Bool) (e : JsErrorV) (ps : JsProps),
      errorToObjectF fuel compact e = Except.ok ps →
      keyMemP "name" ps = true ∧ keyMemP "message" ps = true
        ∧ keyMemP "stack" ps = true)
    ∧ (∃ ps, errorToObject true
        (JsErrorV.mk "NotCustomError" "not custom error" "st"
          (fieldsTJ (pcons "name" (JsPropVal.val (jsStr "CustomError"))
            (pcons "message" (JsPropVal.val (jsStr "custom error")) pnil)))
          pnil noCause) = Except.ok ps
      ∧ lookupP "name" ps = some (JsPropVal.val (jsStr "CustomError"))
      ∧ lookupP "message" ps = some (JsPropVal.val (jsStr "custom error"))
      ∧ keyMemP "stack" ps = true)
    ∧ (∃ ps, errorToObject true
        (JsErrorV.mk "Error" "test error" "st" noTJ
          (pcons "customProperty" (JsPropVal.val (jsStr "custom value")) pnil)
          noCause) = Except.ok ps
      ∧ lookupP "customProperty" ps
          = some (JsPropVal.val (jsStr "custom value")))
    ∧ (∃ ps, errorToObject true
        (JsErrorV.mk "Error" "main error" "st" noTJ pnil
          (causeVal (jsStr "string cause"))) = Except.ok ps
      ∧ lookupP "cause" ps = some (JsPropVal.val (jsStr "string cause")))
    ∧ (∃ ps1 ps2 ps3, errorToObject true
        (JsErrorV.mk "Error" "Top" "s1" noTJ pnil
          (causeVal (jsErr (JsErrorV.mk "Error" "Middle" "s2" noTJ pnil
            (causeVal (jsErr (JsErrorV.mk "Error" "Root cause" "s3" noTJ
              pnil noCause))))))) = Except.ok ps1
      ∧ lookupP "cause" ps1 = some (JsPropVal.val (jsObj ps2))
      ∧ lookupP "cause" ps2 = some (JsPropVal.val (jsObj ps3))
      ∧ lookupP "message" ps3 = some (JsPropVal.val (jsStr "Root cause"))) := by
  refine ⟨errorToObjectF_std_keys, ⟨_, rfl, rfl, rfl, rfl⟩,
    ⟨_, rfl, rfl⟩, ⟨_, rfl, rfl⟩, ⟨_, _, _, rfl, rfl, rfl, rfl⟩⟩

theorem c6_errorToObject_structure_witness :
    keyMemP "name" (pcons "name" (JsPropVal.val (jsStr "Error"))
        (pcons "message" (JsPropVal.val (jsStr "m"))
          (pcons "stack" (JsPropVal.val (jsStr "s")) pnil))) = true
    ∧ keyMemP "message" (pcons "name" (JsPropVal.val (jsStr "Error"))
        (pcons "message" (JsPropVal.val (jsStr "m"))
          (pcons "stack" (JsPropVal.val (jsStr "s")) pnil))) = true
    ∧ keyMemP "stack" (pcons "name" (JsPropVal.val (jsStr "Error"))
        (pcons "message" (JsPropVal.val (jsStr "m"))
          (pcons "stack" (JsPropVal.val (jsStr "s")) pnil))) = true :=
  c6_errorToObject_structure.1 20 true
    (JsErrorV.mk "Error" "m" "s" noTJ pnil noCause) _ rfl

theorem serializeJsonPropertyF_undef_eq (fuel : Nat) (compact : Bool)
    (key : String) :
    serializeJsonPropertyF fuel compact key undef
      = serializeJsonPropertyF fuel compact key
          (jsStr "FakeValue \x7b undefined \x7d") := by
  cases fuel with
  | zero => rfl
  | succ fuel => rfl

theorem serializeJPropsF_undef_subst :
    ∀ (pre : JsProps) (fuel : Nat) (compact : Bool) (k : String)
      (post : JsProps),
      serializeJPropsF fuel compact
        (appendP pre (pcons k (JsPropVal.val undef) post))
      = serializeJPropsF fuel compact
        (appendP pre (pcons k
          (JsPropVal.val (jsStr "FakeValue \x7b undefined \x7d")) post))
  | pnil, fuel, compact, k, post => by
      cases fuel with
      | zero => rfl
      | succ fuel =>
          simp only [appendP, serializeJPropsF, bind, Except.bind, pure,
            Except.pure]
          rw [serializeJsonPropertyF_undef_eq]
  | pcons k0 pv0 pre, fuel, compact, k, post => by
      cases fuel with
      | zero => rfl
      | succ fuel =>
          simp only [appendP, serializeJPropsF]
          rw [serializeJPropsF_undef_subst pre fuel compact k post]

theorem jsSizeP_undef_subst :
    ∀ (pre : JsProps) (k : String) (post : JsProps),
      jsSizeP (appendP pre (pcons k (JsPropVal.val undef) post))
      = jsSizeP (appendP pre (pcons k
          (JsPropVal.val (jsStr "FakeValue \x7b undefined \x7d")) post))
  | pnil, k, post => rfl
  | pcons k0 pv0 pre, k, post => by
      simp only [appendP, jsSizeP]
      rw [jsSizeP_undef_subst pre k post]

theorem serializeJsonPropertyF_obj_undef_subst (fuel : Nat) (compact : Bool)
    (key : String) (pre : JsProps) (k : String) (post : JsProps) :
    serializeJsonPropertyF fuel compact key
        (jsObj (appendP pre (pcons k (JsPropVal.val undef) post)))
      = serializeJsonPropertyF fuel compact key
        (jsObj (appendP pre (pcons k
          (JsPropVal.val (jsStr "FakeValue \x7b undefined \x7d")) post))) := by
  cases fuel with
  | zero => rfl
  | succ fuel =>
      simp only [serializeJsonPropertyF, bind, Except.bind, pure, Except.pure]
      rw [serializeJPropsF_undef_subst pre fuel compact k post]

/-- C9: in the stringify walk a property whose value is undefined is
rendered exactly as if its value were the sentinel string
`FakeValue \x7b undefined \x7d` (the replacer substitutes it before the
omission step), at every fuel, for every surrounding object; hence the
whole structured serialization of such an object equals the serialization
with the sentinel string substituted, and the concrete example renders
the `notDefined` key as the sentinel instead of omitting it. -/
theorem c9_undefined_sentinel :
    (∀ (pre : JsProps) (fuel : Nat) (compact : Bool) (k : String)
      (post : JsProps),
      serializeJPropsF fuel compact
        (appendP pre (pcons k (JsPropVal.val undef) post))
      = serializeJPropsF fuel compact
        (appendP pre (pcons k
          (JsPropVal.val (jsStr "FakeValue \x7b undefined \x7d")) post)))
    ∧ (∀ (compact : Bool) (pre : JsProps) (k : String) (post : JsProps),
      jsonStringify compact
        (jsObj (appendP pre (pcons k (JsPropVal.val undef) post)))
      = jsonStringify compact
        (jsObj (appendP pre (pcons k
          (JsPropVal.val (jsStr "FakeValue \x7b undefined \x7d")) post))))
    ∧ formatLogData true
        (jsObj (pcons "defined" (JsPropVal.val (jsStr "value"))
          (pcons "notDefined" (JsPropVal.val undef) pnil)))
      = Except.ok
          "\x7b\"defined\":\"value\",\"notDefined\":\"FakeValue \x7b undefined \x7d\"\x7d" := by
  refine ⟨serializeJPropsF_undef_subst, ?_, rfl⟩
  intro compact pre k post
  have hsz : jsFuel (jsObj (appendP pre (pcons k (JsPropVal.val undef) post)))
      = jsFuel (jsObj (appendP pre (pcons k
          (JsPropVal.val (jsStr "FakeValue \x7b undefined \x7d")) post))) := by
    simp [jsFuel, jsSizeV, jsSizeP_undef_subst pre k post]
  simp only [jsonStringify, hsz]
  rw [serializeJsonPropertyF_obj_undef_subst]

theorem serializeJPropsF_cons_inv (fuel : Nat) (compact : Bool) (k : String)
    (pv : JsPropVal) (rest : JsProps) (fs : JFields)
    (h : serializeJPropsF fuel compact (pcons k pv rest) = Except.ok fs) :
    ∃ (f : Nat) (v : JsVal) (t? : Option JTree) (restF : JFields),
      fuel = f + 1 ∧ pv = JsPropVal.val v
      ∧ serializeJsonPropertyF f compact k v = Except.ok t?
      ∧ serializeJPropsF f compact rest = Except.ok restF
      ∧ fs = (match t? with
          | some t => JFields.fcons k t restF
          | none => restF) := by
  cases fuel with
  | zero => simp [serializeJPropsF] at h
  | succ f =>
      cases pv with
      | getterThrows => simp [serializeJPropsF, bind, Except.bind] at h
      | val v =>
          simp only [serializeJPropsF, bind, Except.bind, pure,
            Except.pure] at h
          cases h1 : serializeJsonPropertyF f compact k v with
          | error e => rw [h1] at h; simp at h
          | ok t? =>
              rw [h1] at h
              cases h2 : serializeJPropsF f compact rest with
              | error e => rw [h2] at h; simp at h
              | ok restF =>
                  rw [h2] at h
                  cases t? with
                  | some t =>
                      simp only [pure, Except.pure, Except.ok.injEq] at h
                      exact ⟨f, v, some t, restF, rfl, rfl, h1, h2, h.symm⟩
                  | none =>
                      simp only [pure, Except.pure, Except.ok.injEq] at h
                      exact ⟨f, v, none, restF, rfl, rfl, h1, h2, h.symm⟩

theorem serializeJsonPropertyF_num_inv (fuel : Nat) (compact : Bool)
    (k : String) (n : Int) (t? : Option JTree)
    (h : serializeJsonPropertyF fuel compact k (jsNum n) = Except.ok t?) :
    t? = some (JTree.jnum n) := by
  cases fuel with
  | zero => simp [serializeJsonPropertyF] at h
  | succ f =>
      simp only [serializeJsonPropertyF, bind, Except.bind, pure,
        Except.pure, Except.ok.injEq] at h
      exact h.symm

theorem serializeJsonPropertyF_str_inv (fuel : Nat) (compact : Bool)
    (k : String) (s : String) (t? : Option JTree)
    (h : serializeJsonPropertyF fuel compact k (jsStr s) = Except.ok t?) :
    t? = some (JTree.jstr s) := by
  cases fuel with
  | zero => simp [serializeJsonPropertyF] at h
  | succ f =>
      simp only [serializeJsonPropertyF, bind, Except.bind, pure,
        Except.pure, Except.ok.injEq] at h
      exact h.symm

theorem serializeJsonPropertyF_obj_inv (fuel : Nat) (compact : Bool)
    (k : String) (ps : JsProps) (t? : Option JTree)
    (h : serializeJsonPropertyF fuel compact k (jsObj ps) = Except.ok t?) :
    ∃ fs, t? = some (JTree.jobj fs) := by
  cases fuel with
  | zero => simp [serializeJsonPropertyF] at h
  | succ f =>
      simp only [serializeJsonPropertyF, bind, Except.bind, pure,
        Except.pure] at h
      cases hp : serializeJPropsF f compact ps with
      | error e => rw [hp] at h; simp at h
      | ok fs =>
          rw [hp] at h
          simp only [Except.ok.injEq] at h
          exact ⟨fs, h.symm⟩

theorem serializeJPropsF_nil_inv (fuel : Nat) (compact : Bool) (fs : JFields)
    (h : serializeJPropsF fuel compact pnil = Except.ok fs) :
    fs = JFields.fnil := by
  cases fuel with
  | zero => simp [serializeJPropsF] at h
  | succ f =>
      simp only [serializeJPropsF, pure, Except.pure, Except.ok.injEq] at h
      exact h.symm

theorem recordTree_key_order (fuel : Nat) (compact : Bool) (key : String)
    (lvl : Int) (msg : String) (ctx : LogContext) (dataPs : JsProps)
    (t : JTree)
    (h : serializeJsonPropertyF fuel compact key
      (recordToJsVal ⟨lvl, msg, some ctx, some dataPs⟩)
      = Except.ok (some t)) :
    ∃ ctxF dataF, t = JTree.jobj (JFields.fcons "level" (JTree.jnum lvl)
      (JFields.fcons "message" (JTree.jstr msg)
        (JFields.fcons "context" (JTree.jobj ctxF)
          (JFields.fcons "data" (JTree.jobj dataF) JFields.fnil)))) := by
  cases fuel with
  | zero => simp [serializeJsonPropertyF] at h
  | succ f =>
      simp only [recordToJsVal, serializeJsonPropertyF, bind, Except.bind,
        pure, Except.pure] at h
      cases hs : serializeJPropsF f compact
          (pcons "level" (JsPropVal.val (jsNum lvl))
            (pcons "message" (JsPropVal.val (jsStr msg))
              (pcons "context" (JsPropVal.val (jsObj (ctxToProps ctx)))
                (pcons "data" (JsPropVal.val (jsObj dataPs)) pnil)))) with
      | error e => rw [hs] at h; simp at h
      | ok fs =>
          rw [hs] at h
          simp only [Except.ok.injEq, Option.some.injEq] at h
          obtain ⟨f1, v1, t1, r1, hf1, hv1, h1, hr1, hfs1⟩ :=
            serializeJPropsF_cons_inv _ _ _ _ _ _ hs
          cases hv1
          have ht1 := serializeJsonPropertyF_num_inv _ _ _ _ _ h1
          obtain ⟨f2, v2, t2, r2, hf2, hv2, h2, hr2, hfs2⟩ :=
            serializeJPropsF_cons_inv _ _ _ _ _ _ hr1
          cases hv2
          have ht2 := serializeJsonPropertyF_str_inv _ _ _ _ _ h2
          obtain ⟨f3, v3, t3, r3, hf3, hv3, h3, hr3, hfs3⟩ :=
            serializeJPropsF_cons_inv _ _ _ _ _ _ hr2
          cases hv3
          obtain ⟨ctxF, ht3⟩ := serializeJsonPropertyF_obj_inv _ _ _ _ _ h3
          obtain ⟨f4, v4, t4, r4, hf4, hv4, h4, hr4, hfs4⟩ :=
            serializeJPropsF_cons_inv _ _ _ _ _ _ hr3
          cases hv4
          obtain ⟨dataF, ht4⟩ := serializeJsonPropertyF_obj_inv _ _ _ _ _ h4
          have hr4nil := serializeJPropsF_nil_inv _ _ _ hr4
          subst ht1 ht2 ht3 ht4 hr4nil
          refine ⟨ctxF, dataF, ?_⟩
          rw [← h, hfs1, hfs2, hfs3, hfs4]

/-- C8, counterexample: with both fields present the emitted JSON has
`context` BEFORE `data` (`getLogData` sets `context` first), not `data`
before `context` as claimed; and an empty context object is still
emitted, not dropped. -/
theorem c8_counterexample_context_precedes_data :
    logE (mkLogger none (some (ConfigLevel.lvlNum 10)) false "t"
        (some (some [("requestId", "X")]))) 30 "m"
        (jsObj (pcons "a" (JsPropVal.val (jsNum 1)) pnil))
      = Except.ok
          ⟨["\x7b\n  \"level\": 30,\n  \"message\": \"m\",\n  \"context\": \x7b\n    \"requestId\": \"X\"\n  \x7d,\n  \"data\": \x7b\n    \"a\": 1\n  \x7d\n\x7d"],
            []⟩
    ∧ ("\x7b\n  \"level\": 30,\n  \"message\": \"m\",\n  \"context\": \x7b\n    \"requestId\": \"X\"\n  \x7d,\n  \"data\": \x7b\n    \"a\": 1\n  \x7d\n\x7d" : String)
      ≠ "\x7b\n  \"level\": 30,\n  \"message\": \"m\",\n  \"data\": \x7b\n    \"a\": 1\n  \x7d,\n  \"context\": \x7b\n    \"requestId\": \"X\"\n  \x7d\n\x7d"
    ∧ logE (mkLogger none (some (ConfigLevel.lvlNum 10)) true "t"
        (some (some []))) 30 "m" undef
      = Except.ok
          ⟨["\x7b\"level\":30,\"message\":\"m\",\"context\":\x7b\x7d\x7d"], []⟩ :=
  ⟨rfl, by decide, rfl⟩

/-- C8, amended: in structured mode every successfully serialized record
is a JSON object whose keys appear in the order
`level, message, context?, data?` (context BEFORE data; the level is the
numeric Severity value; context is present whenever the accessor returned
a record, even an empty one, and data whenever the call data or scope was
truthy); with compact=false the output uses a 2-space indent, and compact
mode is a single line with no indent. -/
theorem c8_structured_output_contract :
    (∀ (fuel : Nat) (compact : Bool) (key : String) (lvl : Int)
      (msg : String) (ctx : LogContext) (dataPs : JsProps) (t : JTree),
      serializeJsonPropertyF fuel compact key
        (recordToJsVal ⟨lvl, msg, some ctx, some dataPs⟩)
        = Except.ok (some t) →
      ∃ ctxF dataF, t = JTree.jobj (JFields.fcons "level" (JTree.jnum lvl)
        (JFields.fcons "message" (JTree.jstr msg)
          (JFields.fcons "context" (JTree.jobj ctxF)
            (JFields.fcons "data" (JTree.jobj dataF) JFields.fnil)))))
    ∧ formatLogData false
        (recordToJsVal ⟨30, "m", some [("requestId", "X")],
          some (pcons "a" (JsPropVal.val (jsNum 1)) pnil)⟩)
      = Except.ok
          "\x7b\n  \"level\": 30,\n  \"message\": \"m\",\n  \"context\": \x7b\n    \"requestId\": \"X\"\n  \x7d,\n  \"data\": \x7b\n    \"a\": 1\n  \x7d\n\x7d"
    ∧ formatLogData true
        (recordToJsVal ⟨30, "m", some [("requestId", "X")],
          some (pcons "a" (JsPropVal.val (jsNum 1)) pnil)⟩)
      = Except.ok
          "\x7b\"level\":30,\"message\":\"m\",\"context\":\x7b\"requestId\":\"X\"\x7d,\"data\":\x7b\"a\":1\x7d\x7d"
    ∧ formatLogData false (recordToJsVal ⟨30, "m", none, none⟩)
      = Except.ok "\x7b\n  \"level\": 30,\n  \"message\": \"m\"\n\x7d" :=
  ⟨recordTree_key_order, rfl, rfl, rfl⟩

theorem c8_structured_output_contract_witness :
    ∃ ctxF dataF,
      JTree.jobj (JFields.fcons "level" (JTree.jnum 30)
        (JFields.fcons "message" (JTree.jstr "m")
          (JFields.fcons "context"
            (JTree.jobj (JFields.fcons "requestId" (JTree.jstr "X")
              JFields.fnil))
            (JFields.fcons "data"
              (JTree.jobj (JFields.fcons "a" (JTree.jnum 1) JFields.fnil))
              JFields.fnil))))
      = JTree.jobj (JFields.fcons "level" (JTree.jnum 30)
        (JFields.fcons "message" (JTree.jstr "m")
          (JFields.fcons "context" (JTree.jobj ctxF)
            (JFields.fcons "data" (JTree.jobj dataF) JFields.fnil)))) :=
  c8_structured_output_contract.1 40 true "" 30 "m" [("requestId", "X")]
    (pcons "a" (JsPropVal.val (jsNum 1)) pnil)
    (JTree.jobj (JFields.fcons "level" (JTree.jnum 30)
      (JFields.fcons "message" (JTree.jstr "m")
        (JFields.fcons "context"
          (JTree.jobj (JFields.fcons "requestId" (JTree.jstr "X")
            JFields.fnil))
          (JFields.fcons "data"
            (JTree.jobj (JFields.fcons "a" (JTree.jnum 1) JFields.fnil))
            JFields.fnil))))) rfl
